import Mathlib

/-!
Verification of the credentials-updater program (src/main.py) against its
natural-language specification.

The program is a sequential file-editing pipeline.  We embed it shallowly:
file contents are lists of characters, the filesystem state that each
operation touches is passed explicitly (an `Option` content for a file that
may not exist), and each Python function becomes a pure Lean function
returning either the new file content or, for the fallible credentials
update, `Except String` with the raised message.

The four fixed regular expressions of the source are simple enough to be
translated into direct decidable matchers; each translation is justified in
a comment next to the definition.  Python regex `$` (no MULTILINE) matches
at the end of the string or just before one final newline, and the
IGNORECASE flag is threaded through as an explicit `ic` argument because
the source applies it to some calls and not to others.  Character-class
semantics are modelled for ASCII data; the credentials format is ASCII.
-/

set_option maxRecDepth 1000000

namespace AwsCreds

/-- File contents and strings are lists of characters. -/
abbrev Str := List Char

/-- ASCII whitespace stripped by Python `str.strip()` and matched by the
regex class `\s` (space, tab, newline, carriage return, vertical tab,
form feed).  Exotic Unicode space characters are outside the data handled
by this program and are omitted. -/
def isPySpace (c : Char) : Bool :=
  c == ' ' || c == '\t' || c == '\n' || c == '\r' || c == '\x0b' || c == '\x0c'

/-- The line terminators recognised by Python `str.splitlines`:
newline, carriage return, vertical tab, form feed, the separators
x1c-x1e, next-line u0085, and the Unicode line and paragraph separators.
The two-character terminator CRLF is handled in `pySplitlinesGo`. -/
def isLineBreak (c : Char) : Bool :=
  c.toNat == 10 || c.toNat == 13 || c.toNat == 11 || c.toNat == 12 ||
  c.toNat == 28 || c.toNat == 29 || c.toNat == 30 || c.toNat == 133 ||
  c.toNat == 8232 || c.toNat == 8233

/-- Worker for `pySplitlines`: `acc` holds the current line reversed.
A terminator emits the current line (CRLF counting as one terminator); at
the end of input the pending line is emitted only if it is nonempty, so a
trailing terminator does not produce a final empty line — exactly the
behaviour of Python `str.splitlines()`. -/
def pySplitlinesGo : Str → Str → List Str
  | acc, [] => if acc = [] then [] else [acc.reverse]
  | acc, '\r' :: '\n' :: rest => acc.reverse :: pySplitlinesGo [] rest
  | acc, c :: rest =>
      if isLineBreak c then acc.reverse :: pySplitlinesGo [] rest
      else pySplitlinesGo (c :: acc) rest

/-- Python `str.splitlines()` (no keepends), used on line 139 of the
source: `creds_lines = creds_contents.splitlines()`. -/
def pySplitlines (s : Str) : List Str := pySplitlinesGo [] s

/-- Python `str.strip()`: remove leading and trailing whitespace,
used on line 142 of the source: `line.strip() == profile_identifier`. -/
def pyStrip (s : Str) : Str :=
  List.rdropWhile isPySpace (s.dropWhile isPySpace)

/-- Character comparison, case-folded when the IGNORECASE flag `ic` is
set, as Python `re` does for literal pattern characters. -/
def icEq (ic : Bool) (p c : Char) : Bool :=
  if ic then p.toLower == c.toLower else p == c

/-- Match a literal pattern fragment at the front of `s`; return the
remaining input on success.  This is how a regex literal consumes input. -/
def dropLit (ic : Bool) : Str → Str → Option Str
  | [], s => some s
  | _ :: _, [] => none
  | p :: ps, c :: cs => if icEq ic p c then dropLit ic ps cs else none

/-- Python regex `$` without MULTILINE: matches at the end of the string,
or just before a newline that ends the string. -/
def matchEnd (s : Str) : Bool := s.isEmpty || s == ['\n']

/-- The regex class `[A-Z0-9]`; under IGNORECASE it also accepts
lowercase ASCII letters. -/
def upperDigit (ic : Bool) (c : Char) : Bool :=
  c.isDigit || (if ic then c.isAlpha else c.isUpper)

/-- The regex class `[^=]`: any character other than `=`, including
line terminators. -/
def notEqSign (c : Char) : Bool := c != '='

/-- Helper for a pattern tail of the form `cls{n}$`: exactly `n`
characters of the class, then end of input (`matchEnd`).  Since the
repetition count is fixed there is no backtracking. -/
def matchFixedClass (cls : Char → Bool) (n : Nat) (s : Str) : Bool :=
  decide (n ≤ s.length) && (s.take n).all cls && matchEnd (s.drop n)

/-- ACCESS_KEY_PATTERN (line 23 of the source):
`^aws_access_key_id=[A-Z0-9]{20}$`.  `ic` is the IGNORECASE flag: the
re-validation inside `update_creds_file` passes it, the input validation
in `process_credentials` does not. -/
def matchAccessKey (ic : Bool) (s : Str) : Bool :=
  match dropLit ic (("aws_access_key_id=").toList) s with
  | none => false
  | some rest => matchFixedClass (upperDigit ic) 20 rest

/-- SECRET_KEY_PATTERN (line 24 of the source):
`^aws_secret_access_key=[^=]{40}$`. -/
def matchSecretKey (ic : Bool) (s : Str) : Bool :=
  match dropLit ic (("aws_secret_access_key=").toList) s with
  | none => false
  | some rest => matchFixedClass notEqSign 40 rest

/-- SESSION_TOKEN_PATTERN (line 25 of the source):
`^aws_session_token=[^=]{892,}$`.  The greedy unbounded repetition
followed by `$` matches exactly when the rest of the input consists of at
least 892 non-`=` characters up to the end, or up to a single final
newline (the `$` of Python matching before a trailing newline). -/
def matchSessionToken (ic : Bool) (s : Str) : Bool :=
  match dropLit ic (("aws_session_token=").toList) s with
  | none => false
  | some rest =>
      (decide (892 ≤ rest.length) && rest.all notEqSign) ||
      (decide (893 ≤ rest.length) && (rest.getLastD 'x' == '\n') &&
        rest.dropLast.all notEqSign)

/-- The regex class `[A-Z\-_0-9]` of the profile-header pattern; under
IGNORECASE (which `process_credentials` passes) it also accepts lowercase
ASCII letters. -/
def headerClass (ic : Bool) (c : Char) : Bool :=
  (if ic then c.isAlpha else c.isUpper) || c == '-' || c == '_' || c.isDigit

/-- The profile-header pattern of line 186 of the source:
`^\[[0-9]{12}[A-Z\-_0-9]{6,}\]$`.  The literal brackets consume one
character each (case folding cannot affect them); after the 12 digits,
the greedy class repetition must be maximal because `]` is not in the
class, so the matcher takes the maximal class run and then requires `]`
and `$`. -/
def matchHeader (ic : Bool) (s : Str) : Bool :=
  (s.head? == some '[') &&
  (let rest := s.tail
   decide (12 ≤ rest.length) && (rest.take 12).all Char.isDigit &&
   decide (6 ≤ (List.takeWhile (headerClass ic) (rest.drop 12)).length) &&
   (let after := List.dropWhile (headerClass ic) (rest.drop 12)
    (after.head? == some ']') && matchEnd after.tail))

/-- Python substring containment, `needle in hay` (line 119 of the
source). -/
def containsStr : Str → Str → Bool
  | needle, [] => needle.isEmpty
  | needle, c :: t => needle.isPrefixOf (c :: t) || containsStr needle t

/-- Python `"\n".join(lines)` (lines 123 and 164 of the source). -/
def joinLines : List Str → Str
  | [] => []
  | [l] => l
  | l :: l' :: ls => l ++ '\n' :: joinLines (l' :: ls)

/-- The `for i, line in enumerate(creds_lines): if line.strip() ==
profile_identifier: ... break / else: raise` loop of lines 141-147 of the
source: index of the first line whose stripped form equals the header. -/
def findProfileLine (pid : Str) : List Str → Option Nat
  | [] => none
  | l :: ls =>
      if pyStrip l = pid then some 0
      else (findProfileLine pid ls).map (· + 1)

/-- DEFAULT_CONFIG (lines 15-18 of the source). -/
def DEFAULT_CONFIG : Str :=
  ("[default]\nregion = eu-west-1\noutput = json\n").toList

/-- The part of DEFAULT_CONFIG_REGEX (lines 19-21 of the source) after
the leading `(^|\n)` group:
`\[default\]\nregion\s*=\s*eu-west-1\noutput\s*=\s*(json|yaml)($|\n)`,
matched case-insensitively.  Each `\s*` is followed by a non-whitespace
literal, so greedy maximal munch is exact; `($|\n)` succeeds when the
remaining input is empty or starts with a newline. -/
def matchDefaultBody (s : Str) : Bool :=
  match dropLit true (("[default]\nregion").toList) s with
  | none => false
  | some s1 =>
      match s1.dropWhile isPySpace with
      | '=' :: s3 =>
          match dropLit true (("eu-west-1\noutput").toList)
              (s3.dropWhile isPySpace) with
          | none => false
          | some s5 =>
              match s5.dropWhile isPySpace with
              | '=' :: s7 =>
                  let s8 := s7.dropWhile isPySpace
                  (match dropLit true (("json").toList) s8 with
                   | some s9 => s9.isEmpty || s9.head? == some '\n'
                   | none => false) ||
                  (match dropLit true (("yaml").toList) s8 with
                   | some s9 => s9.isEmpty || s9.head? == some '\n'
                   | none => false)
              | _ => false
      | _ => false

/-- `re.match(DEFAULT_CONFIG_REGEX, config_contents, IGNORECASE)` (line
89 of the source).  `re.match` anchors at position 0, where the group
`(^|\n)` either matches empty (the `^` branch) or consumes a literal
leading newline. -/
def matchDefaultConfig (s : Str) : Bool :=
  matchDefaultBody s ||
  (match s with
   | '\n' :: rest => matchDefaultBody rest
   | _ => false)

/-- Modelled from the spec: the spec reads the default-block check as
"binary presence of the exact expected block pattern anywhere in the
file", i.e. `re.search` of DEFAULT_CONFIG_REGEX: the body may match at
position 0 or after any newline of the content.  This definition exists
to compare the spec reading with the anchored `re.match` the code
performs. -/
def searchNLBody : Str → Bool
  | [] => false
  | '\n' :: rest => matchDefaultBody rest || searchNLBody rest
  | _ :: rest => searchNLBody rest

/-- Modelled from the spec: `re.search` of the whole regex, the body
matching at position 0 (the `^` branch) or after any newline. -/
def searchDefaultConfig (s : Str) : Bool :=
  matchDefaultBody s || searchNLBody s

/-- `process_config_file` (lines 73-100 of the source), as a function
from the current config-file state (`none` when the file does not exist)
to the config-file content after the call. -/
def process_config_file (config : Option Str) : Str :=
  match config with
  | none => DEFAULT_CONFIG
  | some config_contents =>
      if matchDefaultConfig config_contents then config_contents
      else config_contents ++ ('\n' :: '\n' :: DEFAULT_CONFIG)

/-- `update_creds_file` (lines 103-168 of the source), as a function from
the existing credentials-file content and the four input strings to
either the new file content (`Except.ok`) or the message of the raised
exception (`Except.error`; reading past the end of `creds_lines` raises
IndexError).  The shadowing `let creds_lines := ...` bindings mirror the
in-place list mutations of the Python code. -/
def update_creds_file (creds_contents profile_identifier access_key_string
    secret_key_string session_token_string : Str) : Except String Str :=
  if containsStr profile_identifier creds_contents = false then
    Except.ok (creds_contents ++ ('\n' :: '\n' ::
      joinLines [profile_identifier, access_key_string,
        secret_key_string, session_token_string]))
  else
    let creds_lines := pySplitlines creds_contents
    match findProfileLine profile_identifier creds_lines with
    | none => Except.error "Unable to find profile identifier in credentials file"
    | some profile_line_num =>
        match creds_lines[profile_line_num + 1]? with
        | none => Except.error "IndexError: list index out of range"
        | some line1 =>
            if matchAccessKey true line1 then
              let creds_lines := creds_lines.set (profile_line_num + 1)
                access_key_string
              match creds_lines[profile_line_num + 2]? with
              | none => Except.error "IndexError: list index out of range"
              | some line2 =>
                  if matchSecretKey true line2 then
                    let creds_lines := creds_lines.set (profile_line_num + 2)
                      secret_key_string
                    match creds_lines[profile_line_num + 3]? with
                    | none => Except.error "IndexError: list index out of range"
                    | some line3 =>
                        if matchSessionToken true line3 then
                          Except.ok (joinLines (creds_lines.set
                            (profile_line_num + 3) session_token_string))
                        else Except.error
                          "Session Token line does not match the expected regex"
                  else Except.error
                    "Secret Key line does not match the expected regex"
            else Except.error
              "Access Key line does not match the expected regex"

/-- `process_credentials` (lines 171-214 of the source), after the four
`input()` reads: validate the four strings (the header with IGNORECASE,
the other three without), raise `Exception("TBD")` if any fails, then
update the existing credentials file or write a fresh one. -/
def process_credentials (credsFile : Option Str)
    (profile_identifier access_key_string secret_key_string
      session_token_string : Str) : Except String Str :=
  if matchHeader true profile_identifier &&
      matchAccessKey false access_key_string &&
      matchSecretKey false secret_key_string &&
      matchSessionToken false session_token_string then
    match credsFile with
    | some creds_contents =>
        update_creds_file creds_contents profile_identifier access_key_string
          secret_key_string session_token_string
    | none =>
        Except.ok (joinLines [profile_identifier, access_key_string,
          secret_key_string, session_token_string])
  else Except.error "TBD"

/-- `create_backups` (lines 51-70 of the source): for each of the two
files that exists, `copyfile` places its full content in the backup
directory under the source filename suffixed with the formatted
second-granularity timestamp `backup_dttm`.  The backup directory is
modelled as the list of (filename, content) pairs created. -/
def create_backups (creds config : Option Str) (backup_dttm : Str) :
    List (Str × Str) :=
  (match creds with
   | some c => [(("credentials_").toList ++ backup_dttm, c)]
   | none => []) ++
  (match config with
   | some c => [(("config_").toList ++ backup_dttm, c)]
   | none => [])

/-- The conjunction of the three re-validation checks of lines 149-162 of
the source on the three lines following line `i`. -/
def threeValidAfter (ls : List Str) (i : Nat) : Bool :=
  match ls[i + 1]?, ls[i + 2]?, ls[i + 3]? with
  | some l1, some l2, some l3 =>
      matchAccessKey true l1 && matchSecretKey true l2 &&
        matchSessionToken true l3
  | _, _, _ => false

/-- The line list after the three in-place overwrites of lines 150, 155
and 160 of the source. -/
def replacedLines (ls : List Str) (i : Nat) (ak sk st : Str) : List Str :=
  ((ls.set (i + 1) ak).set (i + 2) sk).set (i + 3) st

/-! ### Helper lemmas -/

/-- Every line produced by the splitlines worker is a contiguous part of
the accumulator-plus-remaining-input. -/
theorem pySplitlinesGo_sub (l : Str) : ∀ (acc s : Str),
    l ∈ pySplitlinesGo acc s → l <:+: (acc.reverse ++ s) := by
  intro acc s
  induction acc, s using pySplitlinesGo.induct with
  | case1 =>
    intro h
    simp [pySplitlinesGo] at h
  | case2 acc hne =>
    intro h
    rw [pySplitlinesGo, if_neg hne] at h
    simp only [List.mem_singleton] at h
    subst h
    exact (List.prefix_append _ _).isInfix
  | case3 acc rest ih =>
    intro h
    rw [pySplitlinesGo] at h
    rcases List.mem_cons.mp h with h | h
    · subst h
      exact (List.prefix_append _ _).isInfix
    · refine (by simpa using ih h : l <:+: rest).trans
        ⟨acc.reverse ++ ['\r', '\n'], [], by simp⟩
  | case4 acc c rest hnrn hlb ih =>
    intro h
    rw [pySplitlinesGo.eq_3 _ _ _ hnrn, if_pos hlb] at h
    rcases List.mem_cons.mp h with h | h
    · subst h
      exact (List.prefix_append _ _).isInfix
    · refine (by simpa using ih h : l <:+: rest).trans
        ⟨acc.reverse ++ [c], [], by simp⟩
  | case5 acc c rest hnrn hlb ih =>
    intro h
    rw [pySplitlinesGo.eq_3 _ _ _ hnrn, if_neg hlb] at h
    simpa using ih h

/-- Every line of `pySplitlines s` is a contiguous part of `s`. -/
theorem pySplitlines_sub (l s : Str) (h : l ∈ pySplitlines s) : l <:+: s := by
  simpa using pySplitlinesGo_sub l [] s h

/-- Stripping whitespace yields a contiguous part of the original
string. -/
theorem pyStrip_sub (s : Str) : pyStrip s <:+: s := by
  have h1 := List.rdropWhile_prefix isPySpace (s.dropWhile isPySpace)
  have h2 := List.dropWhile_suffix (l := s) isPySpace
  exact h1.isInfix.trans h2.isInfix

/-- A prefix is found by `containsStr`. -/
theorem containsStr_of_pre (needle hay : Str) (h : needle <+: hay) :
    containsStr needle hay = true := by
  match hay with
  | [] =>
    rw [List.prefix_nil] at h
    subst h
    rfl
  | c :: t =>
    have hp : needle.isPrefixOf (c :: t) = true :=
      List.isPrefixOf_iff_prefix.mpr h
    simp [containsStr, hp]

/-- Any contiguous part is found by `containsStr` (soundness of the
Python `in` model with respect to substring decomposition). -/
theorem containsStr_of_sub (needle hay : Str) (h : needle <:+: hay) :
    containsStr needle hay = true := by
  obtain ⟨u, v, huv⟩ := h
  subst huv
  induction u with
  | nil => exact containsStr_of_pre _ _ (by simp)
  | cons a u ih =>
    have h2 : (a :: u) ++ needle ++ v = a :: (u ++ needle ++ v) := by simp
    rw [h2, containsStr, ih]
    simp

/-- Specification of the profile-line search: a result index points at a
line whose stripped form is the profile identifier. -/
theorem findProfileLine_spec (pid : Str) : ∀ (ls : List Str) (i : Nat),
    findProfileLine pid ls = some i →
    ∃ l, ls[i]? = some l ∧ pyStrip l = pid := by
  intro ls
  induction ls with
  | nil => intro i h; simp [findProfileLine] at h
  | cons l t ih =>
    intro i h
    rw [findProfileLine] at h
    by_cases hs : pyStrip l = pid
    · rw [if_pos hs] at h
      obtain rfl : i = 0 := by simpa using h.symm
      exact ⟨l, by simp, hs⟩
    · rw [if_neg hs] at h
      obtain ⟨j, hj, rfl⟩ := Option.map_eq_some'.mp h
      obtain ⟨l', hl', hstrip⟩ := ih j hj
      exact ⟨l', by simpa using hl', hstrip⟩

/-- When the profile-line search succeeds on the split content, the
Python substring test `profile_identifier in creds_contents` is true, so
`update_creds_file` takes the overwrite branch. -/
theorem findProfileLine_some_contains (pid content : Str) (i : Nat)
    (h : findProfileLine pid (pySplitlines content) = some i) :
    containsStr pid content = true := by
  obtain ⟨l, hl, hstrip⟩ := findProfileLine_spec pid _ i h
  have hmem : l ∈ pySplitlines content := List.getElem?_mem hl
  have hsub : pid <:+: content :=
    (hstrip ▸ pyStrip_sub l).trans (pySplitlines_sub l content hmem)
  exact containsStr_of_sub _ _ hsub

/-- `takeWhile` runs through a block that wholly satisfies the
predicate. -/
theorem takeWhile_all_append {α : Type} (p : α → Bool) :
    ∀ (w t : List α), (∀ x ∈ w, p x = true) →
    List.takeWhile p (w ++ t) = w ++ List.takeWhile p t := by
  intro w t
  induction w with
  | nil => intro _; rfl
  | cons a w ih =>
    intro hall
    have ha : p a = true := hall a (by simp)
    have hw : ∀ x ∈ w, p x = true := fun x hx => hall x (by simp [hx])
    simp [List.takeWhile_cons, ha, ih hw]

/-- `dropWhile` skips a block that wholly satisfies the predicate. -/
theorem dropWhile_all_append {α : Type} (p : α → Bool) :
    ∀ (w t : List α), (∀ x ∈ w, p x = true) →
    List.dropWhile p (w ++ t) = List.dropWhile p t := by
  intro w t
  induction w with
  | nil => intro _; rfl
  | cons a w ih =>
    intro hall
    have ha : p a = true := hall a (by simp)
    have hw : ∀ x ∈ w, p x = true := fun x hx => hall x (by simp [hx])
    simp [List.dropWhile_cons, ha, ih hw]

/-- The last character of a joined line list is the last character of the
last line, provided that line is nonempty. -/
theorem joinLines_getLast : ∀ (ls : List Str) (lz : Str),
    ls.getLast? = some lz → lz ≠ [] →
    (joinLines ls).getLast? = lz.getLast? := by
  intro ls
  induction ls with
  | nil => intro lz h _; simp at h
  | cons l t ih =>
    intro lz h hz
    match t with
    | [] =>
      simp only [List.getLast?_singleton, Option.some.injEq] at h
      subst h
      rfl
    | l' :: t' =>
      rw [List.getLast?_cons_cons] at h
      have hmain := ih lz h hz
      obtain ⟨cz, hcz⟩ : ∃ cz, lz.getLast? = some cz :=
        ⟨lz.getLast hz, List.getLast?_eq_getLast lz hz⟩
      rw [joinLines, List.getLast?_append]
      have hx : ('\n' :: joinLines (l' :: t')).getLast? = some cz := by
        have : ('\n' :: joinLines (l' :: t')) = ['\n'] ++ joinLines (l' :: t') := rfl
        rw [this, List.getLast?_append, hmain, hcz]
        rfl
      rw [hx, hcz]
      rfl

/-- Core computation of the overwrite branch: when the profile line is
found and the three following lines re-validate, `update_creds_file`
returns the rejoined line list with the three lines replaced. -/
theorem update_creds_file_overwrite_eq
    (content pid ak sk st : Str) (i : Nat)
    (hfind : findProfileLine pid (pySplitlines content) = some i)
    (hvalid : threeValidAfter (pySplitlines content) i = true) :
    update_creds_file content pid ak sk st =
      Except.ok (joinLines (replacedLines (pySplitlines content) i ak sk st)) := by
  have hin : containsStr pid content = true :=
    findProfileLine_some_contains pid content i hfind
  unfold threeValidAfter at hvalid
  rcases h1 : (pySplitlines content)[i + 1]? with _ | l1 <;> rw [h1] at hvalid
  · simp at hvalid
  rcases h2 : (pySplitlines content)[i + 2]? with _ | l2 <;> rw [h2] at hvalid
  · simp at hvalid
  rcases h3 : (pySplitlines content)[i + 3]? with _ | l3 <;> rw [h3] at hvalid
  · simp at hvalid
  simp only [Bool.and_eq_true] at hvalid
  obtain ⟨⟨hm1, hm2⟩, hm3⟩ := hvalid
  rw [update_creds_file, hin]
  rw [if_neg (by simp)]
  simp only [hfind, h1, hm1,
    List.getElem?_set_ne (by omega : i + 1 ≠ i + 2), h2, hm2,
    List.getElem?_set_ne (by omega : i + 2 ≠ i + 3),
    List.getElem?_set_ne (by omega : i + 1 ≠ i + 3), h3, hm3,
    if_true, replacedLines]

/-- C1: for a credentials file in which the profile header occurs as an
exact stripped line (the first such line, the one the code locates) and
is immediately followed by three lines matching the access-key,
secret-key and session-token patterns, the update rewrites the file as
the join of its line list with exactly those three lines replaced by the
new values: the replaced positions hold the new values and every other
line is unchanged. -/
theorem update_creds_file_overwrite_frame
    (content pid ak sk st : Str) (i : Nat)
    (hfind : findProfileLine pid (pySplitlines content) = some i)
    (hvalid : threeValidAfter (pySplitlines content) i = true) :
    update_creds_file content pid ak sk st =
      Except.ok (joinLines (replacedLines (pySplitlines content) i ak sk st)) ∧
    (replacedLines (pySplitlines content) i ak sk st)[i + 1]? = some ak ∧
    (replacedLines (pySplitlines content) i ak sk st)[i + 2]? = some sk ∧
    (replacedLines (pySplitlines content) i ak sk st)[i + 3]? = some st ∧
    (replacedLines (pySplitlines content) i ak sk st).length =
      (pySplitlines content).length ∧
    ∀ j, j ≠ i + 1 → j ≠ i + 2 → j ≠ i + 3 →
      (replacedLines (pySplitlines content) i ak sk st)[j]? =
        (pySplitlines content)[j]? := by
  have hlen : ∀ k, (pySplitlines content)[i + k]?.isSome = true →
      i + k < (pySplitlines content).length := by
    intro k hk
    by_contra hnot
    rw [List.getElem?_eq_none (by omega)] at hk
    simp at hk
  unfold threeValidAfter at hvalid
  rcases h1 : (pySplitlines content)[i + 1]? with _ | l1 <;> rw [h1] at hvalid
  · simp at hvalid
  rcases h2 : (pySplitlines content)[i + 2]? with _ | l2 <;> rw [h2] at hvalid
  · simp at hvalid
  rcases h3 : (pySplitlines content)[i + 3]? with _ | l3 <;> rw [h3] at hvalid
  · simp at hvalid
  have hl1 : i + 1 < (pySplitlines content).length := hlen 1 (by rw [h1]; rfl)
  have hl2 : i + 2 < (pySplitlines content).length := hlen 2 (by rw [h2]; rfl)
  have hl3 : i + 3 < (pySplitlines content).length := hlen 3 (by rw [h3]; rfl)
  refine ⟨update_creds_file_overwrite_eq content pid ak sk st i hfind
    (by unfold threeValidAfter; rw [h1, h2, h3]; exact hvalid), ?_, ?_, ?_, ?_, ?_⟩
  · rw [replacedLines,
      List.getElem?_set_ne (by omega : i + 3 ≠ i + 1),
      List.getElem?_set_ne (by omega : i + 2 ≠ i + 1)]
    exact List.getElem?_set_self hl1
  · rw [replacedLines, List.getElem?_set_ne (by omega : i + 3 ≠ i + 2)]
    exact List.getElem?_set_self (by simpa using hl2)
  · rw [replacedLines]
    exact List.getElem?_set_self (by simpa using hl3)
  · simp [replacedLines]
  · intro j hj1 hj2 hj3
    rw [replacedLines,
      List.getElem?_set_ne (Ne.symm hj3),
      List.getElem?_set_ne (Ne.symm hj2),
      List.getElem?_set_ne (Ne.symm hj1)]

/-- C4: when the profile header is found as an exact stripped line but
the three following lines do not all exist and re-validate against their
patterns, `update_creds_file` raises (returns an error), so the file is
never rewritten on this path. -/
theorem update_creds_file_revalidation_aborts
    (content pid ak sk st : Str) (i : Nat)
    (hfind : findProfileLine pid (pySplitlines content) = some i)
    (hbad : threeValidAfter (pySplitlines content) i = false) :
    ∃ msg, update_creds_file content pid ak sk st = Except.error msg := by
  have hin : containsStr pid content = true :=
    findProfileLine_some_contains pid content i hfind
  rw [update_creds_file, hin]
  rw [if_neg (by simp)]
  simp only [hfind]
  rcases h1 : (pySplitlines content)[i + 1]? with _ | l1
  · exact ⟨_, rfl⟩
  rcases hm1 : matchAccessKey true l1 with _ | _
  · exact ⟨"Access Key line does not match the expected regex", by simp [hm1]⟩
  rw [List.getElem?_set_ne (by omega : i + 1 ≠ i + 2)]
  rcases h2 : (pySplitlines content)[i + 2]? with _ | l2
  · exact ⟨"IndexError: list index out of range", by simp [hm1]⟩
  rcases hm2 : matchSecretKey true l2 with _ | _
  · exact ⟨"Secret Key line does not match the expected regex", by simp [hm1, hm2]⟩
  rw [List.getElem?_set_ne (by omega : i + 2 ≠ i + 3),
    List.getElem?_set_ne (by omega : i + 1 ≠ i + 3)]
  rcases h3 : (pySplitlines content)[i + 3]? with _ | l3
  · exact ⟨"IndexError: list index out of range", by simp [hm1, hm2]⟩
  rcases hm3 : matchSessionToken true l3 with _ | _
  · exact ⟨"Session Token line does not match the expected regex",
      by simp [hm1, hm2, hm3]⟩
  exfalso
  unfold threeValidAfter at hbad
  rw [h1, h2, h3] at hbad
  simp [hm1, hm2, hm3] at hbad

/-- C6: when the profile header occurs as a substring of the credentials
file but no line of the file equals it after stripping, the update
aborts with the dedicated exception from the for-else clause and the
file is unmodified (no content is produced). -/
theorem update_creds_file_header_not_exact_line
    (content pid ak sk st : Str)
    (hin : containsStr pid content = true)
    (hfind : findProfileLine pid (pySplitlines content) = none) :
    update_creds_file content pid ak sk st =
      Except.error "Unable to find profile identifier in credentials file" := by
  rw [update_creds_file, hin]
  rw [if_neg (by simp)]
  simp only [hfind]

/-- C3: for an existing credentials file that does not contain the
profile header as a substring, and syntactically valid input lines, the
update appends two newline characters and then the four new lines
(header, access key, secret key, session token) joined by single
newlines, leaving the original content as an unchanged prefix. -/
theorem process_credentials_appends_new_profile
    (content pid ak sk st : Str)
    (hpid : matchHeader true pid = true)
    (hak : matchAccessKey false ak = true)
    (hsk : matchSecretKey false sk = true)
    (hst : matchSessionToken false st = true)
    (hnotin : containsStr pid content = false) :
    process_credentials (some content) pid ak sk st =
      Except.ok (content ++ ('\n' :: '\n' ::
        (pid ++ '\n' :: (ak ++ '\n' :: (sk ++ '\n' :: st))))) := by
  unfold process_credentials
  rw [hpid, hak, hsk, hst]
  simp only [Bool.and_self, if_true]
  rw [update_creds_file, hnotin]
  rw [if_pos rfl]
  simp [joinLines]

/-- C5: whenever at least one of the four interactive input strings
fails its fixed validation pattern, `process_credentials` raises the
fatal `Exception("TBD")` before touching any file: no file content is
produced, whatever the current state of the credentials file. -/
theorem process_credentials_rejects_invalid_input
    (credsFile : Option Str) (pid ak sk st : Str)
    (hbad : (matchHeader true pid && matchAccessKey false ak &&
      matchSecretKey false sk && matchSessionToken false st) = false) :
    process_credentials credsFile pid ak sk st = Except.error "TBD" := by
  unfold process_credentials
  rw [hbad]
  rfl

/-- Concrete config content whose default block occurs in the middle of
the file but not at its start. -/
def configMid : Str :=
  ("x\n[default]\nregion = eu-west-1\noutput = json\n").toList

/-- C2 counterexample: the default block occurs inside `configMid` (the
spec reading, `re.search`), yet `process_config_file` modifies the
content, because the code anchors the regex at the start of the file
with `re.match`. -/
theorem config_block_in_middle_is_modified :
    searchDefaultConfig configMid = true ∧
    process_config_file (some configMid) ≠ configMid := by
  constructor
  · decide
  · decide

/-- C2 amended: the config-ensuring operation leaves the content
unchanged exactly when the expected default block (case-insensitive,
output `json` or `yaml`) matches at the start of the file (position 0,
or after a single leading newline, the two ways `re.match` can satisfy
the leading `(^|\n)` group); the check is a binary anchored match, not a
search anywhere in the file. -/
theorem process_config_file_unchanged_iff_match_at_start (c : Str) :
    process_config_file (some c) = c ↔ matchDefaultConfig c = true := by
  rw [process_config_file]
  constructor
  · intro h
    by_contra hb
    rw [Bool.not_eq_true] at hb
    rw [if_neg (by simp [hb])] at h
    have hlen := congrArg List.length h
    rw [List.length_append,
      (by decide : ('\n' :: '\n' :: DEFAULT_CONFIG).length = 45)] at hlen
    omega
  · intro h
    rw [if_pos h]

/-- C2 amended, applied: the canonical default content itself starts
with the default block, so the operation leaves it unchanged. -/
theorem process_config_file_unchanged_iff_match_at_start_witness :
    process_config_file (some DEFAULT_CONFIG) = DEFAULT_CONFIG :=
  (process_config_file_unchanged_iff_match_at_start DEFAULT_CONFIG).mpr (by decide)

/-- C9: a pre-existing config content that does not match the anchored
default-block pattern is rewritten as the original content followed by
exactly two newline characters and the canonical default block. -/
theorem process_config_file_appends_default (c : Str)
    (h : matchDefaultConfig c = false) :
    process_config_file (some c) = c ++ ('\n' :: '\n' :: DEFAULT_CONFIG) := by
  rw [process_config_file, if_neg (by simp [h])]

/-- C9 witness at the content `x`. -/
theorem process_config_file_appends_default_witness :
    process_config_file (some (("x").toList)) =
      ("x").toList ++ ('\n' :: '\n' :: DEFAULT_CONFIG) :=
  process_config_file_appends_default (("x").toList) (by decide)

/-- C8: for each of the credentials and config files that exists before
the run, the backup step creates an entry in the backup directory whose
name is the source filename suffixed with the second-granularity
timestamp and whose content is byte-identical to the pre-run content of
that file; a file that does not exist produces no backup entry under its
name. -/
theorem create_backups_complete
    (creds config : Option Str) (d : Str) :
    (∀ c, creds = some c →
      ((("credentials_").toList ++ d, c) ∈ create_backups creds config d)) ∧
    (∀ c, config = some c →
      ((("config_").toList ++ d, c) ∈ create_backups creds config d)) ∧
    (creds = none → ∀ e ∈ create_backups creds config d,
      e.1 ≠ ("credentials_").toList ++ d) ∧
    (config = none → ∀ e ∈ create_backups creds config d,
      e.1 ≠ ("config_").toList ++ d) := by
  rcases creds with _ | c1 <;> rcases config with _ | c2 <;>
    simp [create_backups]

/-- C8 witness: a run in which only the credentials file exists. -/
theorem create_backups_complete_witness :
    ((("credentials_").toList ++ ("20240101000000").toList, ("k").toList) ∈
      create_backups (some (("k").toList)) none (("20240101000000").toList)) ∧
    (∀ e ∈ create_backups (some (("k").toList)) none (("20240101000000").toList),
      e.1 ≠ ("config_").toList ++ ("20240101000000").toList) :=
  ⟨(create_backups_complete (some (("k").toList)) none
      (("20240101000000").toList)).1 (("k").toList) rfl,
   (create_backups_complete (some (("k").toList)) none
      (("20240101000000").toList)).2.2.2 rfl⟩

/-- Modelled from the claim wording of C7: a header is `[`, then exactly
12 digits, then 6 or more characters drawn from uppercase letters,
digits, dash and underscore, then `]` (`headerClass false` is exactly
that character set). -/
def claimedHeaderForm (s : Str) : Bool :=
  (s.head? == some '[') &&
  (let rest := s.tail
   (rest.getLastD ' ' == ']') &&
   decide (18 ≤ rest.dropLast.length) &&
   (rest.dropLast.take 12).all Char.isDigit &&
   (rest.dropLast.drop 12).all (headerClass false))

/-- The header shape the code actually accepts on newline-free input:
as `claimedHeaderForm`, but with the suffix characters drawn from
letters of either case, digits, dash and underscore, because the header
validation passes IGNORECASE. -/
def acceptedHeaderForm (s : Str) : Bool :=
  (s.head? == some '[') &&
  (let rest := s.tail
   (rest.getLastD ' ' == ']') &&
   decide (18 ≤ rest.dropLast.length) &&
   (rest.dropLast.take 12).all Char.isDigit &&
   (rest.dropLast.drop 12).all (headerClass true))

/-- A header whose suffix contains lowercase letters. -/
def hdrLower : Str := ("[123456789012abcdef]").toList

/-- C7 counterexample: the code accepts `[123456789012abcdef]`, a header
whose suffix consists of lowercase letters, although the claim says such
headers are rejected: the validation passes IGNORECASE, so the class
`[A-Z\-_0-9]` also matches lowercase letters. -/
theorem header_lowercase_accepted :
    matchHeader true hdrLower = true ∧ claimedHeaderForm hdrLower = false := by
  constructor
  · decide
  · decide

/-- C7 amended: a newline-free input string is accepted by the header
validation if and only if it is `[`, exactly 12 digits, 6 or more
characters drawn from letters of either case, digits, dash and
underscore, and `]`.  (Newline-free is the shape of every `input()`
result; on a string with a trailing newline the Python `$` would also
match before it.  Character classes are modelled for ASCII data.) -/
theorem matchHeader_iff_acceptedHeaderForm (s : Str) (hnl : '\n' ∉ s) :
    matchHeader true s = true ↔ acceptedHeaderForm s = true := by
  rcases s with _ | ⟨c, rest⟩
  · simp [matchHeader, acceptedHeaderForm]
  by_cases hc : c = '['
  case neg =>
    simp [matchHeader, acceptedHeaderForm, hc]
  subst hc
  have hnlr : '\n' ∉ rest := fun h => hnl (by simp [h])
  rw [matchHeader, acceptedHeaderForm]
  simp only [List.head?_cons, List.tail_cons, beq_self_eq_true, Bool.true_and,
    Bool.and_eq_true, decide_eq_true_eq, beq_iff_eq]
  constructor
  · rintro ⟨⟨⟨h12, hdig⟩, h6⟩, hhead, hend⟩
    set cls := headerClass true with hcls
    set A := rest.drop 12 with hA
    obtain ⟨tl, hafter⟩ : ∃ tl, List.dropWhile cls A = ']' :: tl := by
      rcases hd : List.dropWhile cls A with _ | ⟨x, tl⟩
      · rw [hd] at hhead
        simp at hhead
      · rw [hd] at hhead
        simp only [List.head?_cons, Option.some.injEq] at hhead
        exact ⟨tl, by rw [hhead]⟩
    have htl : tl = [] := by
      rw [hafter] at hend
      rcases (by simpa [matchEnd] using hend : tl = [] ∨ tl = ['\n']) with h | h
      · exact h
      · exfalso
        apply hnlr
        have : '\n' ∈ List.dropWhile cls A := by
          rw [hafter, h]
          simp
        exact List.mem_of_mem_drop ((List.dropWhile_sublist cls).mem this)
    subst htl
    have hdecomp : A = List.takeWhile cls A ++ [']'] := by
      conv_lhs => rw [← List.takeWhile_append_dropWhile cls A, hafter]
    set w := List.takeWhile cls A with hw
    set d := rest.take 12 with hd
    have hdlen : d.length = 12 := by
      rw [hd, List.length_take]
      omega
    have hrest : rest = d ++ w ++ [']'] := by
      rw [hd, hw, List.append_assoc, ← hdecomp, hA, List.take_append_drop]
    rw [hrest]
    have hdl : ((d ++ w ++ [']']).dropLast) = d ++ w := List.dropLast_concat
    refine ⟨⟨⟨List.getLastD_concat _ _ _, ?_⟩, ?_⟩, ?_⟩
    · rw [hdl, List.length_append]
      omega
    · rw [hdl, List.take_left' hdlen]
      exact hdig
    · rw [hdl, List.drop_left' hdlen, List.all_eq_true]
      exact fun x hx => List.mem_takeWhile_imp hx
  · rintro ⟨⟨⟨hlast, h18⟩, hdig⟩, hcl⟩
    have hne : rest ≠ [] := by
      intro h
      subst h
      simp at hlast
    set m := rest.dropLast with hm
    have hrest : rest = m ++ [']'] := by
      have hgl := List.dropLast_append_getLast hne
      have : rest.getLast hne = ']' := by
        have := List.getLastD_eq_getLast? ' ' rest
        rw [List.getLast?_eq_getLast rest hne] at this
        rw [hlast] at this
        simpa using this.symm
      rw [← this, hgl]
    set d := m.take 12 with hd
    set w := m.drop 12 with hw
    have hdw : m = d ++ w := (List.take_append_drop 12 m).symm
    have hdlen : d.length = 12 := by
      rw [hd, List.length_take]
      omega
    have hwlen : 6 ≤ w.length := by
      rw [hw, List.length_drop]
      omega
    have hwcls : ∀ x ∈ w, headerClass true x = true := by
      rw [← List.all_eq_true]
      exact hcl
    have hrest2 : rest = d ++ (w ++ [']']) := by
      rw [hrest, hdw, List.append_assoc]
    have htake : List.takeWhile (headerClass true) (w ++ [']']) = w := by
      rw [takeWhile_all_append _ w [']'] hwcls]
      simp [List.takeWhile, headerClass]
    have hdrop : List.dropWhile (headerClass true) (w ++ [']']) = [']'] := by
      rw [dropWhile_all_append _ w [']'] hwcls]
      simp [List.dropWhile, headerClass]
    rw [hrest2]
    rw [List.take_left' hdlen, List.drop_left' hdlen, htake, hdrop]
    refine ⟨⟨⟨?_, hdig⟩, hwlen⟩, rfl, rfl⟩
    rw [List.length_append, List.length_append]
    omega

/-- C7 amended witness: a mixed-case header with dash and underscore is
accepted and has the accepted shape. -/
theorem matchHeader_iff_acceptedHeaderForm_witness :
    ('\n' ∉ (("[123456789012abcDEF-_0]").toList)) ∧
    (matchHeader true (("[123456789012abcDEF-_0]").toList) = true ↔
      acceptedHeaderForm (("[123456789012abcDEF-_0]").toList) = true) :=
  ⟨by decide, matchHeader_iff_acceptedHeaderForm _ (by decide)⟩

/-- C10: on the successful overwrite path the file is rebuilt by
splitting into lines and rejoining with single newlines, so when the
original content ends with a newline (and the rejoined line list ends
with a nonempty line that does not end in a newline, as every real
credentials line does), the rewritten content no longer ends with that
newline: the byte content of the file changes beyond the three replaced
lines. -/
theorem update_creds_file_overwrite_changes_bytes
    (content pid ak sk st lz : Str) (i : Nat)
    (hend : content.getLast? = some '\n')
    (hfind : findProfileLine pid (pySplitlines content) = some i)
    (hvalid : threeValidAfter (pySplitlines content) i = true)
    (hlz : (replacedLines (pySplitlines content) i ak sk st).getLast? = some lz)
    (hlzne : lz ≠ [])
    (hlzc : lz.getLast? ≠ some '\n') :
    update_creds_file content pid ak sk st =
      Except.ok (joinLines (replacedLines (pySplitlines content) i ak sk st)) ∧
    (joinLines (replacedLines (pySplitlines content) i ak sk st)).getLast? ≠
      some '\n' ∧
    joinLines (replacedLines (pySplitlines content) i ak sk st) ≠ content := by
  have h1 := update_creds_file_overwrite_eq content pid ak sk st i hfind hvalid
  have h2 : (joinLines (replacedLines (pySplitlines content) i ak sk st)).getLast?
      = lz.getLast? :=
    joinLines_getLast _ lz hlz hlzne
  refine ⟨h1, ?_, ?_⟩
  · rw [h2]
    exact hlzc
  · intro heq
    rw [heq, hend] at h2
    exact hlzc h2.symm

/-! ### Concrete inputs for the witnesses -/

/-- A valid profile header. -/
def pidW : Str := ("[123456789012ABCDEF]").toList

/-- A valid existing access-key line. -/
def akW : Str := ("aws_access_key_id=AAAAAAAAAAAAAAAAAAAA").toList

/-- A valid existing secret-key line. -/
def skW : Str :=
  ("aws_secret_access_key=0123456789012345678901234567890123456789").toList

/-- A valid existing session-token line (892 token characters). -/
def stW : Str := ("aws_session_token=").toList ++ List.replicate 892 'A'

/-- A valid new access-key line. -/
def akN : Str := ("aws_access_key_id=BBBBBBBBBBBBBBBBBBBB").toList

/-- A valid new secret-key line. -/
def skN : Str :=
  ("aws_secret_access_key=9876543210987654321098765432109876543210").toList

/-- A valid new session-token line. -/
def stN : Str := ("aws_session_token=").toList ++ List.replicate 892 'B'

/-- A well-formed credentials file holding the profile `pidW`. -/
def credsW : Str := joinLines [pidW, akW, skW, stW]

/-- C1 witness: on the concrete file `credsW` the update succeeds, and
line 0 (the header, a position other than the three replaced ones) is
unchanged. -/
theorem update_creds_file_overwrite_frame_witness :
    update_creds_file credsW pidW akN skN stN =
      Except.ok (joinLines (replacedLines (pySplitlines credsW) 0 akN skN stN)) ∧
    (replacedLines (pySplitlines credsW) 0 akN skN stN)[0]? =
      (pySplitlines credsW)[0]? :=
  ⟨(update_creds_file_overwrite_frame credsW pidW akN skN stN 0
      (by decide) (by decide)).1,
   (update_creds_file_overwrite_frame credsW pidW akN skN stN 0
      (by decide) (by decide)).2.2.2.2.2 0 (by decide) (by decide) (by decide)⟩

/-- A credentials file in which the header line is followed by a line
that fails the access-key pattern. -/
def credsBad : Str := pidW ++ ('\n' :: ("badline").toList)

/-- C4 witness: on `credsBad` the update aborts with an error. -/
theorem update_creds_file_revalidation_aborts_witness :
    ∃ msg, update_creds_file credsBad pidW akN skN stN = Except.error msg :=
  update_creds_file_revalidation_aborts credsBad pidW akN skN stN 0
    (by decide) (by decide)

/-- A content containing the header as a substring but on no exact
stripped line. -/
def credsSub : Str := ("x[123456789012ABCDEF]y").toList

/-- C6 witness: on `credsSub` the update raises the for-else
exception. -/
theorem update_creds_file_header_not_exact_line_witness :
    update_creds_file credsSub pidW akN skN stN =
      Except.error "Unable to find profile identifier in credentials file" :=
  update_creds_file_header_not_exact_line credsSub pidW akN skN stN
    (by decide) (by decide)

/-- C3 witness: appending the new profile to a one-character file. -/
theorem process_credentials_appends_new_profile_witness :
    process_credentials (some (("x").toList)) pidW akN skN stN =
      Except.ok (("x").toList ++ ('\n' :: '\n' ::
        (pidW ++ '\n' :: (akN ++ '\n' :: (skN ++ '\n' :: stN))))) :=
  process_credentials_appends_new_profile (("x").toList) pidW akN skN stN
    (by decide) (by decide) (by decide) (by decide) (by decide)

/-- C5 witness: an invalid header string is rejected with the TBD
exception whatever the file state. -/
theorem process_credentials_rejects_invalid_input_witness :
    process_credentials (some []) (("x").toList) [] [] [] =
      Except.error "TBD" :=
  process_credentials_rejects_invalid_input (some []) (("x").toList) [] [] []
    (by decide)

/-- C9 and C2 exercised the config operation directly; the credentials
file of the C10 witness is `credsW` with a trailing newline. -/
def credsNl : Str := credsW ++ ['\n']

/-- C10 witness: the trailing newline of `credsNl` is lost by the
overwrite rewrite. -/
theorem update_creds_file_overwrite_changes_bytes_witness :
    update_creds_file credsNl pidW akN skN stN =
      Except.ok (joinLines (replacedLines (pySplitlines credsNl) 0 akN skN stN)) ∧
    (joinLines (replacedLines (pySplitlines credsNl) 0 akN skN stN)).getLast? ≠
      some '\n' ∧
    joinLines (replacedLines (pySplitlines credsNl) 0 akN skN stN) ≠ credsNl :=
  update_creds_file_overwrite_changes_bytes credsNl pidW akN skN stN stN 0
    (by decide) (by decide) (by decide) (by decide) (by decide) (by decide)

end AwsCreds
